import Mathlib

/-!
Shallow embedding of the orders-api repository: the Redis-backed order
repository (type RedisRepository in package order), its operations
Insert, FindByID, DeleteByID, Update and FindAll, and proofs about them.

The external key-value store collaborator (the go-redis client plus the
store) is not part of this repository; it is modelled from the contract
stated in the spec: conditional create and conditional update signal
"key existed / key absent" through a boolean result rather than an error,
a set scan returns a list of members together with a next cursor, and
queueing a command on a transaction pipeline only buffers it, so the
error observed at queue time is always nil; the buffered commands take
effect only when the pipeline is executed.
-/

namespace OrdersApi

deriving instance DecidableEq for Except

/-- Modelled from the spec: the type model.Order (the model package is not
in the source tree). An order carries a numeric OrderID used to derive its
storage key, plus an otherwise opaque field-named payload. -/
structure Order where
  orderID : Nat
  payload : List (String × String)
deriving DecidableEq, Repr

/-- Modelled from the spec: one tagged field value of the self-describing
structured blob produced by serializing an order. -/
inductive FieldVal where
  | nat (n : Nat)
  | str (s : String)
deriving DecidableEq, Repr

/-- Modelled from the spec: the self-describing structured blob stored as
the value under a primary key (field-named, not positional). Blobs that do
not come from encoding an order may fail to decode. -/
structure Blob where
  fields : List (String × FieldVal)
deriving DecidableEq, Repr

/-- Modelled from the spec: serialization of an order into the structured
blob, field-named, with the OrderID field first and the opaque payload
fields after it. -/
def encodeOrder (o : Order) : Blob :=
  ⟨("OrderID", FieldVal.nat o.orderID) :: o.payload.map (fun p => (p.1, FieldVal.str p.2))⟩

/-- Modelled from the spec: decoding of the payload fields of a blob; every
payload field must carry a string value. -/
def decodePayload : List (String × FieldVal) → Option (List (String × String))
  | [] => some []
  | (k, FieldVal.str v) :: rest => (decodePayload rest).map (fun ps => (k, v) :: ps)
  | _ => none

/-- Modelled from the spec: deserialization of a stored blob back into an
order; fails on blobs that are not of the shape encodeOrder produces. -/
def decodeOrder (b : Blob) : Except String Order :=
  match b.fields with
  | (k, FieldVal.nat id) :: rest =>
    if k = "OrderID" then
      match decodePayload rest with
      | some ps => .ok { orderID := id, payload := ps }
      | none => .error "failed to decode order payload"
    else .error "failed to decode order"
  | _ => .error "failed to decode order"

/-- Modelled from the spec: json.Marshal applied to an order value; for
every well-formed order the serialization succeeds and yields the
structured blob. The repository operations are stated generically over the
marshalling step (insertWith, updateWith) so that the behavior on a failing
serialization is also covered. -/
def marshalOrder (o : Order) : Except String Blob :=
  .ok (encodeOrder o)

/-- The state of the key-value store as the repository uses it: the
primary-key entries (string key to blob value) and the members of the
single index set stored under the key "orders". -/
structure Store where
  kv : List (String × Blob)
  index : List String
deriving DecidableEq, Repr

def emptyStore : Store := ⟨[], []⟩

/-- GET on the primary-key table: first binding of the key, if any. -/
def lookupKV : List (String × Blob) → String → Option Blob
  | [], _ => none
  | (k, v) :: rest, key => if k = key then some v else lookupKV rest key

/-- SETNX semantics: create the binding only when the key is absent. -/
def setIfAbsent (kv : List (String × Blob)) (key : String) (v : Blob) :
    List (String × Blob) :=
  if (lookupKV kv key).isSome then kv else (key, v) :: kv

/-- SET with the XX flag: replace the value only where the key is already
bound; an absent key is left absent. -/
def setIfExists (kv : List (String × Blob)) (key : String) (v : Blob) :
    List (String × Blob) :=
  kv.map (fun p => if p.1 = key then (key, v) else p)

/-- DEL semantics: drop every binding of the key. -/
def delKV (kv : List (String × Blob)) (key : String) : List (String × Blob) :=
  kv.filter (fun p => p.1 != key)

/-- SADD semantics on the index set: add the member unless present. -/
def saddIndex (idx : List String) (m : String) : List String :=
  if m ∈ idx then idx else m :: idx

/-- SREM semantics on the index set: drop the member. -/
def sremIndex (idx : List String) (m : String) : List String :=
  idx.filter (fun x => x != m)

/-- The store commands the repository queues on transaction pipelines. -/
inductive RedisCmd where
  | setnx (key : String) (value : Blob)
  | sadd (setKey member : String)
  | del (key : String)
  | srem (setKey member : String)
deriving DecidableEq, Repr

abbrev Pipeline := List RedisCmd

/-- TxPipeline: a fresh transaction pipeline with no queued commands. -/
def txPipeline : Pipeline := []

/-- Queueing a command on a pipeline buffers it; no server round trip has
happened yet, so the error the repository reads off the returned command
handle at queue time is always nil. -/
def queueCmd (p : Pipeline) (c : RedisCmd) : Pipeline × Option String :=
  (p ++ [c], none)

/-- Effect of one store command on the store state. -/
def applyCmd (s : Store) : RedisCmd → Store
  | .setnx key v => { s with kv := setIfAbsent s.kv key v }
  | .sadd _ m => { s with index := saddIndex s.index m }
  | .del key => { s with kv := delKV s.kv key }
  | .srem _ m => { s with index := sremIndex s.index m }

/-- Exec on a transaction pipeline: the queued commands run as one
all-or-nothing batch, in queue order. -/
def execPipeline (p : Pipeline) (s : Store) : Store :=
  p.foldl applyCmd s

/-- SetXX as the client exposes it: a boolean telling whether the value was
updated (false when the key is absent), an error that is nil in both cases
per the conditional-update contract of the spec, and the resulting state. -/
def setXX (key : String) (v : Blob) (s : Store) :
    Bool × Option String × Store :=
  ((lookupKV s.kv key).isSome, none, { s with kv := setIfExists s.kv key v })

/-- SScan over the index set, modelled from the scan contract of the spec:
return up to size members starting at the cursor position together with the
next cursor, 0 once the scan is exhausted. -/
def setScan (index : List String) (cursor : Nat) (size : Nat) :
    List String × Nat :=
  let members := (index.drop cursor).take size
  let next := cursor + members.length
  (members, if index.length ≤ next then 0 else next)

/-- MGet: the values of the requested keys in request order; an absent key
yields a nil entry. -/
def mget (kv : List (String × Blob)) (keys : List String) : List (Option Blob) :=
  keys.map (lookupKV kv)

/-- The error values the repository returns. notFound embeds ErrNotExist;
the other constructors embed the wrapped fmt.Errorf errors, keyed by the
wrapping message, with the underlying cause preserved as the string. -/
inductive RepoErr where
  | encodingFailed (msg : String)
  | insertFailed (msg : String)
  | addSetFailed (msg : String)
  | execFailed (msg : String)
  | notFound
  | getFailed (msg : String)
  | decodingFailed (msg : String)
  | removeSetFailed (msg : String)
  | updateFailed (msg : String)
deriving DecidableEq, Repr

/-- The sentinel string standing for the redis.Nil error value. -/
def redisNil : String := "redis: nil"

/-- orderIDKey from the source: the fixed textual pattern deriving the
storage key from the numeric order id. -/
def orderIDKey (orderID : Nat) : String :=
  "order:" ++ toString orderID

/-- Insert from the source, generic in the marshalling step: marshal the
order, then queue SetNX of the primary key and SAdd of the index member on
a transaction pipeline, checking the (queue-time) error of each command,
and finally execute the pipeline. The boolean result of SetNX is never
inspected. -/
def insertWith (marshal : Order → Except String Blob) (o : Order) (s : Store) :
    Except RepoErr Unit × Store :=
  match marshal o with
  | .error e => (.error (.encodingFailed e), s)
  | .ok data =>
    let key := orderIDKey o.orderID
    let transaction := txPipeline
    let q1 := queueCmd transaction (.setnx key data)
    match q1.2 with
    | some e => (.error (.insertFailed e), s)
    | none =>
      let q2 := queueCmd q1.1 (.sadd "orders" key)
      match q2.2 with
      | some e => (.error (.addSetFailed e), s)
      | none => (.ok (), execPipeline q2.1 s)

/-- Insert with the marshalling step of the source. -/
def Insert (o : Order) (s : Store) : Except RepoErr Unit × Store :=
  insertWith marshalOrder o s

/-- FindByID from the source: GET the primary key, mapping an absent key to
ErrNotExist, then decode the stored blob. -/
def FindByID (id : Nat) (s : Store) : Except RepoErr Order :=
  let key := orderIDKey id
  match lookupKV s.kv key with
  | none => .error .notFound
  | some value =>
    match decodeOrder value with
    | .error e => .error (.decodingFailed e)
    | .ok o => .ok o

/-- DeleteByID from the source: queue Del of the primary key and SRem of
the index member on a transaction pipeline, checking queue-time errors (the
redisNil comparison mirrors the errors.Is check against redis.Nil). The
source never executes this pipeline: there is no Exec call, so the queued
commands are dropped and the state is returned unchanged. -/
def DeleteByID (id : Nat) (s : Store) : Except RepoErr Unit × Store :=
  let key := orderIDKey id
  let transaction := txPipeline
  let q1 := queueCmd transaction (.del key)
  match q1.2 with
  | some e =>
    if e = redisNil then (.error .notFound, s) else (.error (.getFailed e), s)
  | none =>
    let q2 := queueCmd q1.1 (.srem "orders" key)
    match q2.2 with
    | some e => (.error (.removeSetFailed e), s)
    | none => (.ok (), s)

/-- Update from the source, generic in the marshalling step: marshal the
order, then SetXX the primary key. The error of SetXX is compared against
redis.Nil (mirroring errors.Is), but per the conditional-update contract
the client reports an absent key through the boolean result, which the
source never inspects, with a nil error. -/
def updateWith (marshal : Order → Except String Blob) (o : Order) (s : Store) :
    Except RepoErr Unit × Store :=
  match marshal o with
  | .error e => (.error (.encodingFailed e), s)
  | .ok data =>
    let key := orderIDKey o.orderID
    let r := setXX key data s
    match r.2.1 with
    | some e =>
      if e = redisNil then (.error .notFound, r.2.2)
      else (.error (.updateFailed e), r.2.2)
    | none => (.ok (), r.2.2)

/-- Update with the marshalling step of the source. -/
def Update (o : Order) (s : Store) : Except RepoErr Unit × Store :=
  updateWith marshalOrder o s

/-- FindAllPage from the source. -/
structure FindAllPage where
  size : Nat
  offset : Nat
deriving DecidableEq, Repr

/-- FindResult from the source. -/
structure FindResult where
  orders : List Order
  cursor : Nat
deriving DecidableEq, Repr

/-- The decode loop of FindAll: for each fetched value, the source first
asserts the value is a string and then unmarshals it. The assertion on a
nil value (an absent key) panics; the outer Option models this, none
standing for the panic. A blob that fails to unmarshal aborts the loop with
a decoding error result. -/
def decodeScanned : List (Option Blob) → Option (Except RepoErr (List Order))
  | [] => some (.ok [])
  | none :: _ => none
  | some b :: rest =>
    match decodeOrder b with
    | .error e => some (.error (.decodingFailed e))
    | .ok o =>
      match decodeScanned rest with
      | none => none
      | some (.error e) => some (.error e)
      | some (.ok os) => some (.ok (o :: os))

/-- FindAll from the source: SScan the index set for one page of member
keys; when zero keys were scanned, return the empty result with a zero
cursor and no error; otherwise MGet the keys and decode each value in scan
order. The outer Option models termination: none stands for the panic on a
nil MGet entry inside the decode loop. -/
def FindAll (s : Store) (page : FindAllPage) :
    Option (Except RepoErr FindResult) :=
  let scanned := setScan s.index page.offset page.size
  let keys := scanned.1
  if keys.length = 0 then
    some (.ok { orders := [], cursor := 0 })
  else
    match decodeScanned (mget s.kv keys) with
    | none => none
    | some (.error e) => some (.error e)
    | some (.ok orders) => some (.ok { orders := orders, cursor := scanned.2 })

/-- The dual-structure invariant: a key is a member of the index set
exactly when a primary-key entry exists for it. -/
def Inv (s : Store) : Prop :=
  ∀ k, k ∈ s.index ↔ (lookupKV s.kv k).isSome = true

/-- A sample order used by the concrete evaluations below. -/
def o1 : Order := ⟨1, [("customer", "ada")]⟩

/-- A second order with the same OrderID as o1 but a different payload. -/
def o1b : Order := ⟨1, [("customer", "eve")]⟩

/-- The store after inserting o1 into the empty store. -/
def s1 : Store := (Insert o1 emptyStore).2

/-- A store whose index set holds a dangling member: "order:2" is in the
index set but has no primary-key entry. -/
def danglingStore : Store :=
  ⟨[("order:1", encodeOrder o1)], ["order:1", "order:2"]⟩

/-! Helper lemmas about the store primitives and the runs of the
repository operations. -/

/-- Decoding the payload fields undoes their encoding. -/
theorem decodePayload_map (ps : List (String × String)) :
    decodePayload (ps.map (fun p => (p.1, FieldVal.str p.2))) = some ps := by
  induction ps with
  | nil => rfl
  | cons p rest ih => simp [decodePayload, ih]

/-- The run of Insert: it always reports success, and its effect on the
state is the SetNX of the primary key followed by the SAdd of the index
member, both applied by the single Exec of the transaction pipeline. -/
theorem insert_run (o : Order) (s : Store) :
    Insert o s = (.ok (), ⟨setIfAbsent s.kv (orderIDKey o.orderID) (encodeOrder o),
      saddIndex s.index (orderIDKey o.orderID)⟩) := rfl

/-- The run of Update: it always reports success, and its effect is the
conditional replace of the value under the primary key. -/
theorem update_run (o : Order) (s : Store) :
    Update o s = (.ok (), ⟨setIfExists s.kv (orderIDKey o.orderID) (encodeOrder o),
      s.index⟩) := rfl

/-- The run of DeleteByID: the transaction pipeline is never executed, so
it reports success and leaves the state untouched. -/
theorem deleteByID_run (id : Nat) (s : Store) :
    DeleteByID id s = (.ok (), s) := rfl

/-- Membership in the index set after SAdd. -/
theorem mem_saddIndex (idx : List String) (m x : String) :
    x ∈ saddIndex idx m ↔ x = m ∨ x ∈ idx := by
  unfold saddIndex
  by_cases h : m ∈ idx
  · rw [if_pos h]
    constructor
    · exact Or.inr
    · rintro (rfl | hx)
      · exact h
      · exact hx
  · rw [if_neg h]
    exact List.mem_cons

/-- Presence of a binding after SetNX. -/
theorem lookupKV_setIfAbsent_isSome (kv : List (String × Blob)) (key : String)
    (v : Blob) (x : String) :
    (lookupKV (setIfAbsent kv key v) x).isSome = true ↔
      (x = key ∨ (lookupKV kv x).isSome = true) := by
  unfold setIfAbsent
  by_cases hk : (lookupKV kv key).isSome = true
  · rw [if_pos hk]
    constructor
    · exact Or.inr
    · rintro (rfl | hx)
      · exact hk
      · exact hx
  · rw [if_neg hk]
    show (if key = x then some v else lookupKV kv x).isSome = true ↔ _
    by_cases hx : key = x
    · subst hx
      simp
    · rw [if_neg hx]
      constructor
      · exact Or.inr
      · rintro (rfl | h2)
        · exact absurd rfl hx
        · exact h2

/-- SET with the XX flag preserves which keys are bound. -/
theorem lookupKV_setIfExists_isSome (kv : List (String × Blob)) (key : String)
    (v : Blob) (x : String) :
    (lookupKV (setIfExists kv key v) x).isSome = (lookupKV kv x).isSome := by
  induction kv with
  | nil => rfl
  | cons p rest ih =>
    obtain ⟨a, b⟩ := p
    show (lookupKV ((if a = key then (key, v) else (a, b)) :: setIfExists rest key v) x).isSome
      = (lookupKV ((a, b) :: rest) x).isSome
    by_cases ha : a = key
    · subst ha
      rw [if_pos rfl]
      show (if a = x then some v else lookupKV (setIfExists rest a v) x).isSome
        = (if a = x then some b else lookupKV rest x).isSome
      by_cases hx : a = x
      · simp [if_pos hx]
      · simp only [if_neg hx]
        exact ih
    · rw [if_neg ha]
      show (if a = x then some b else lookupKV (setIfExists rest key v) x).isSome
        = (if a = x then some b else lookupKV rest x).isSome
      by_cases hx : a = x
      · simp [if_pos hx]
      · simp only [if_neg hx]
        exact ih

/-- SET with the XX flag leaves every other key untouched. -/
theorem lookupKV_setIfExists_ne (kv : List (String × Blob)) (key : String)
    (v : Blob) (x : String) (hx : x ≠ key) :
    lookupKV (setIfExists kv key v) x = lookupKV kv x := by
  induction kv with
  | nil => rfl
  | cons p rest ih =>
    obtain ⟨a, b⟩ := p
    show lookupKV ((if a = key then (key, v) else (a, b)) :: setIfExists rest key v) x
      = lookupKV ((a, b) :: rest) x
    by_cases ha : a = key
    · subst ha
      rw [if_pos rfl]
      show (if a = x then some v else lookupKV (setIfExists rest a v) x)
        = (if a = x then some b else lookupKV rest x)
      have hax : ¬ a = x := fun h => hx h.symm
      rw [if_neg hax, if_neg hax]
      exact ih
    · rw [if_neg ha]
      show (if a = x then some b else lookupKV (setIfExists rest key v) x)
        = (if a = x then some b else lookupKV rest x)
      by_cases hax : a = x
      · rw [if_pos hax, if_pos hax]
      · rw [if_neg hax, if_neg hax]
        exact ih

/-- Insert preserves the dual-structure invariant. -/
theorem inv_insert (o : Order) (s : Store) (h : Inv s) : Inv (Insert o s).2 := by
  intro k
  show k ∈ saddIndex s.index (orderIDKey o.orderID) ↔
    (lookupKV (setIfAbsent s.kv (orderIDKey o.orderID) (encodeOrder o)) k).isSome = true
  rw [mem_saddIndex, lookupKV_setIfAbsent_isSome]
  exact or_congr Iff.rfl (h k)

/-- Update preserves the dual-structure invariant. -/
theorem inv_update (o : Order) (s : Store) (h : Inv s) : Inv (Update o s).2 := by
  intro k
  show k ∈ s.index ↔
    (lookupKV (setIfExists s.kv (orderIDKey o.orderID) (encodeOrder o)) k).isSome = true
  rw [lookupKV_setIfExists_isSome]
  exact h k

/-- The empty store satisfies the dual-structure invariant. -/
theorem inv_emptyStore : Inv emptyStore := by
  intro k
  simp [emptyStore, lookupKV]

/-! The claims. -/

/-- C1: the claim states that inserting a second order with an already
stored OrderID leaves the first value unchanged and fails with an
InsertFailed-class error. On the code, the first half holds but the second
does not: the boolean result of the conditional create is never inspected
and the queue-time error of the pipelined SetNX is always nil, so the
duplicate Insert reports success. Concretely, after inserting o1, inserting
o1b (same OrderID 1, different payload) returns ok and leaves the store,
including the stored value of key order:1, exactly as it was. -/
theorem c1_duplicate_insert_reports_success :
    (Insert o1b s1).1 = .ok () ∧ (Insert o1b s1).2 = s1 ∧
    lookupKV s1.kv (orderIDKey 1) = some (encodeOrder o1) := by decide

/-- C2: the claim states that after a successful DeleteByID, FindByID fails
with NotFound and the key is gone from FindAll enumerations. On the code,
DeleteByID reports success but never executes its transaction pipeline, so
the order of id 1 is still found by FindByID and still enumerated by
FindAll afterwards. -/
theorem c2_delete_leaves_order_findable :
    (DeleteByID 1 s1).1 = .ok () ∧ (DeleteByID 1 s1).2 = s1 ∧
    FindByID 1 (DeleteByID 1 s1).2 = .ok o1 ∧
    FindAll (DeleteByID 1 s1).2 ⟨10, 0⟩ = some (.ok ⟨[o1], 0⟩) := by decide

/-- C3: the claim states that DeleteByID on an id with no stored order
fails with NotFound. On the code, the NotFound branch compares the
queue-time error of the pipelined Del against redis.Nil, which is always
nil, so the branch is unreachable: deleting the absent id 5 from the empty
store reports success. -/
theorem c3_delete_missing_id_reports_success :
    FindByID 5 emptyStore = .error .notFound ∧
    DeleteByID 5 emptyStore = (.ok (), emptyStore) := by decide

/-- C4, counterexample: the claim states that FindAll over a page holding a
dangling index member returns a decode/fetch error result and does not
crash. In danglingStore the member order:2 of the index set has no
primary-key entry; FindAll over the page covering it evaluates to none,
which models the panic of the string type assertion on the nil MGet entry,
not to an error result. -/
theorem c4_dangling_member_crashes :
    ("order:2" ∈ danglingStore.index) ∧
    lookupKV danglingStore.kv "order:2" = none ∧
    FindAll danglingStore ⟨10, 0⟩ = none := by decide

/-- The decode loop reaches a nil entry, and hence panics, whenever every
fetched value before the nil entry is a blob that decodes successfully. -/
theorem decodeScanned_append_none (xs : List (Option Blob))
    (rest : List (Option Blob))
    (h : ∀ x ∈ xs, ∃ b o, x = some b ∧ decodeOrder b = .ok o) :
    decodeScanned (xs ++ none :: rest) = none := by
  induction xs with
  | nil => rfl
  | cons x xs ih =>
    obtain ⟨b, o, rfl, hdec⟩ := h x (List.mem_cons_self x xs)
    have ih2 := ih (fun y hy => h y (List.mem_cons_of_mem _ hy))
    show decodeScanned (some b :: (xs ++ none :: rest)) = none
    simp [decodeScanned, hdec, ih2]

/-- C4, amended: if the scan of a FindAll call returns a member key whose
primary entry is missing from the store, and every member the scan returns
before it has a primary entry whose blob decodes successfully, then FindAll
panics (the string type assertion on the nil MGet entry of the dangling
member), modelled as the result none, rather than returning an error
result to the caller. -/
theorem c4_dangling_member_panics (s : Store) (page : FindAllPage)
    (pre : List String) (k : String) (rest : List String)
    (hscan : (setScan s.index page.offset page.size).1 = pre ++ k :: rest)
    (hpre : ∀ x ∈ pre, ∃ b o, lookupKV s.kv x = some b ∧ decodeOrder b = .ok o)
    (hmiss : lookupKV s.kv k = none) :
    FindAll s page = none := by
  have hvals : mget s.kv (pre ++ k :: rest)
      = pre.map (lookupKV s.kv) ++ none :: rest.map (lookupKV s.kv) := by
    simp [mget, hmiss]
  have hdrop : decodeScanned (mget s.kv (pre ++ k :: rest)) = none := by
    rw [hvals]
    refine decodeScanned_append_none (pre.map (lookupKV s.kv))
      (rest.map (lookupKV s.kv)) ?_
    intro x hx
    obtain ⟨y, hy, rfl⟩ := List.mem_map.mp hx
    exact hpre y hy
  unfold FindAll
  simp only [hscan, hdrop, List.length_append, List.length_cons]
  simp

/-- C4, witness for the amended claim at the concrete dangling store: the
scan returns the decodable member order:1 before the dangling member
order:2, and FindAll panics. -/
theorem c4_dangling_member_panics_witness :
    FindAll danglingStore ⟨10, 0⟩ = none :=
  c4_dangling_member_panics danglingStore ⟨10, 0⟩ ["order:1"] "order:2" []
    (by decide)
    (by
      intro x hx
      rw [List.mem_singleton] at hx
      subst hx
      exact ⟨encodeOrder o1, o1, by decide, by decide⟩)
    (by decide)

/-- C5: every operation preserves the dual-structure invariant (index
membership exactly where a primary entry exists), and Insert establishes
both the primary entry and the index membership of the inserted key
together, through the single Exec of its transaction pipeline. -/
theorem c5_dual_structure_invariant_preserved (s : Store) (h : Inv s)
    (o : Order) (id : Nat) :
    Inv (Insert o s).2 ∧ Inv (DeleteByID id s).2 ∧ Inv (Update o s).2 ∧
    (lookupKV (Insert o s).2.kv (orderIDKey o.orderID)).isSome = true ∧
    orderIDKey o.orderID ∈ (Insert o s).2.index := by
  refine ⟨inv_insert o s h, h, inv_update o s h, ?_, ?_⟩
  · show (lookupKV (setIfAbsent s.kv (orderIDKey o.orderID) (encodeOrder o))
      (orderIDKey o.orderID)).isSome = true
    rw [lookupKV_setIfAbsent_isSome]
    exact Or.inl rfl
  · show orderIDKey o.orderID ∈ saddIndex s.index (orderIDKey o.orderID)
    rw [mem_saddIndex]
    exact Or.inl rfl

/-- C5, witness: the invariant hypothesis discharged at the empty store. -/
theorem c5_dual_structure_invariant_preserved_witness :
    Inv emptyStore ∧
    (Inv (Insert o1 emptyStore).2 ∧ Inv (DeleteByID 2 emptyStore).2 ∧
     Inv (Update o1 emptyStore).2 ∧
     (lookupKV (Insert o1 emptyStore).2.kv (orderIDKey o1.orderID)).isSome = true ∧
     orderIDKey o1.orderID ∈ (Insert o1 emptyStore).2.index) :=
  ⟨inv_emptyStore,
   c5_dual_structure_invariant_preserved emptyStore inv_emptyStore o1 2⟩

/-- C6: the claim states that Update on an absent OrderID fails with
NotFound and does not create the key. On the code, the second half holds
(the conditional set leaves the absent key absent) but the first does not:
the client signals the absent key through the boolean result of the
conditional update, which is never inspected, and the error compared
against redis.Nil is nil, so Update on the absent id 7 reports success. -/
theorem c6_update_missing_id_reports_success :
    FindByID 7 emptyStore = .error .notFound ∧
    Update ⟨7, []⟩ emptyStore = (.ok (), emptyStore) := by decide

/-- C7: FindAll with page size 0, or on an empty index set, or in any call
whose scan returns zero keys, returns the empty order list with cursor 0
and no error. -/
theorem c7_findAll_empty_scan_ok (s : Store) (page : FindAllPage)
    (h : page.size = 0 ∨ s.index = [] ∨
      (setScan s.index page.offset page.size).1 = []) :
    FindAll s page = some (.ok ⟨[], 0⟩) := by
  have hkeys : (setScan s.index page.offset page.size).1 = [] := by
    rcases h with h | h | h
    · simp [setScan, h]
    · simp [setScan, h]
    · exact h
  unfold FindAll
  simp [hkeys]

/-- C7, witness: a page of size 0 against the empty store. -/
theorem c7_findAll_empty_scan_ok_witness :
    FindAll emptyStore ⟨0, 0⟩ = some (.ok ⟨[], 0⟩) :=
  c7_findAll_empty_scan_ok emptyStore ⟨0, 0⟩ (Or.inl rfl)

/-- C8: decoding the serialized blob of any order yields the order back. -/
theorem c8_decode_encode_roundtrip (o : Order) :
    decodeOrder (encodeOrder o) = .ok o := by
  unfold encodeOrder decodeOrder
  simp [decodePayload_map]

/-- C9: Update never changes which keys exist: the index set is untouched,
every primary key other than the one derived from the OrderID of the
updated order keeps its exact binding, and the key derived from the OrderID
keeps its presence status (only its value may change). -/
theorem c9_update_frame (o : Order) (s : Store) (k : String)
    (hk : k ≠ orderIDKey o.orderID) :
    (Update o s).2.index = s.index ∧
    lookupKV (Update o s).2.kv k = lookupKV s.kv k ∧
    (lookupKV (Update o s).2.kv (orderIDKey o.orderID)).isSome
      = (lookupKV s.kv (orderIDKey o.orderID)).isSome := by
  refine ⟨rfl, ?_, ?_⟩
  · show lookupKV (setIfExists s.kv (orderIDKey o.orderID) (encodeOrder o)) k
      = lookupKV s.kv k
    exact lookupKV_setIfExists_ne s.kv (orderIDKey o.orderID) (encodeOrder o) k hk
  · show (lookupKV (setIfExists s.kv (orderIDKey o.orderID) (encodeOrder o))
      (orderIDKey o.orderID)).isSome
      = (lookupKV s.kv (orderIDKey o.orderID)).isSome
    exact lookupKV_setIfExists_isSome s.kv (orderIDKey o.orderID) (encodeOrder o)
      (orderIDKey o.orderID)

/-- C9, witness: the frame property of Update at the store holding o1,
observed at the unrelated key order:2. -/
theorem c9_update_frame_witness :
    (Update o1 s1).2.index = s1.index ∧
    lookupKV (Update o1 s1).2.kv "order:2" = lookupKV s1.kv "order:2" ∧
    (lookupKV (Update o1 s1).2.kv (orderIDKey o1.orderID)).isSome
      = (lookupKV s1.kv (orderIDKey o1.orderID)).isSome :=
  c9_update_frame o1 s1 "order:2" (by decide)

/-- C10: when the marshalling step fails, Insert and Update return the
encoding error before any store command is issued, leaving the store state
(primary keys and index set) exactly as it was. -/
theorem c10_encoding_error_state_unchanged
    (marshal : Order → Except String Blob) (o : Order) (e : String)
    (s : Store) (h : marshal o = .error e) :
    insertWith marshal o s = (.error (.encodingFailed e), s) ∧
    updateWith marshal o s = (.error (.encodingFailed e), s) := by
  constructor
  · simp [insertWith, h]
  · simp [updateWith, h]

/-- C10, witness: a marshalling step that fails on every order, applied to
o1 over the empty store. -/
theorem c10_encoding_error_state_unchanged_witness :
    insertWith (fun _ => .error "boom") o1 emptyStore
      = (.error (.encodingFailed "boom"), emptyStore) ∧
    updateWith (fun _ => .error "boom") o1 emptyStore
      = (.error (.encodingFailed "boom"), emptyStore) :=
  c10_encoding_error_state_unchanged (fun _ => .error "boom") o1 "boom"
    emptyStore rfl

end OrdersApi
